import Mathlib

/-!
Verification of the identifier-allocation engine of the `quantum` Ryu plugin
(`quantum/plugins/ryu/db/api_v2.py`) and of the VLAN release operation of the
linuxbridge plugin, via a shallow embedding in Lean.

The database session is modelled as an explicit `Store` value threaded through
the operations:
  * `TunnelKey` rows become `Store.tunnelKeys : List (Nat × Int)`
    (network_id, tunnel_key);
  * `TunnelKeyLast` rows become `Store.lastRows : List Int` (one `last_key`
    per row; the table is intended to be a singleton);
  * the process-wide globals `_TUNNEL_KEY_MIN` / `_TUNNEL_KEY_MAX` become an
    explicitly passed `TunnelConfig`;
  * raising `NoResultFound` / failing the transaction becomes returning `none`.
-/

/-- The pair of module-level globals `_TUNNEL_KEY_MIN` / `_TUNNEL_KEY_MAX`. -/
structure TunnelConfig where
  tkMin : Int
  tkMax : Int
deriving Repr, DecidableEq

/-- Source constant `_TUNNEL_KEY_MIN_HARD = 1`. -/
def tunnelKeyMinHard : Int := 1

/-- Source constant `_TUNNEL_KEY_MAX_HARD = 0xffffffff`. -/
def tunnelKeyMaxHard : Int := 0xffffffff

/-- `tunnel_key_init(tunnel_key_min, tunnel_key_max)`: validates the requested
range against the hard limits; on an invalid request it logs a warning and
returns, keeping the previous globals; otherwise it installs the new range. -/
def tunnel_key_init (cfg : TunnelConfig) (tmin tmax : Int) : TunnelConfig :=
  if tmin < tunnelKeyMinHard ∨ tmax > tunnelKeyMaxHard ∨ tmin > tmax then
    cfg
  else
    ⟨tmin, tmax⟩

/-- The database state visible to the tunnel-key allocator: the `tunnelkeys`
table (rows `(network_id, tunnel_key)`) and the `TunnelKeyLast` table
(one `last_key` value per row). -/
structure Store where
  tunnelKeys : List (Nat × Int)
  lastRows : List Int
deriving Repr, DecidableEq

/-- The set of tunnel keys currently present in the `tunnelkeys` table. -/
def assignedKeys (st : Store) : List Int :=
  st.tunnelKeys.map Prod.snd

/-- Minimum of a list of integers (`ORDER BY new_key LIMIT 1` over a result
set), `none` on an empty result. -/
def list_min : List Int → Option Int
  | [] => none
  | x :: xs =>
    match list_min xs with
    | none => some x
    | some m => some (min x m)

/-- `_tunnel_key_last(session)`: load the `TunnelKeyLast` singleton.
If no row exists, create one holding `_TUNNEL_KEY_MIN`.
If several rows exist, the source computes
`max_key = session.query(func.max(TunnelKeyLast.last_key))` — a `Query`
object, not a scalar — and then tests `max_key > _TUNNEL_KEY_MAX`.  Under
Python 2's default mixed-type ordering a non-numeric object always compares
greater than an `int`, so the test is always true and `max_key` is always
replaced by `_TUNNEL_KEY_MIN`; the surplus rows are deleted and the one
remaining row holds `_TUNNEL_KEY_MIN`.  Returns the (now unique) row's value
together with the updated store. -/
def tunnel_key_last (cfg : TunnelConfig) (st : Store) : Int × Store :=
  match st.lastRows with
  | [x] => (x, st)
  | [] => (cfg.tkMin, { st with lastRows := [cfg.tkMin] })
  | _ :: _ :: _ => (cfg.tkMin, { st with lastRows := [cfg.tkMin] })

/-- `_tunnel_key_find(session, last_key)`: the two-query free-slot search.
First query: if `last_key + 1` is not present in `tunnelkeys`, it is the
candidate.  Second query (run only when the first returns no row): the least
`t.tunnel_key + 1` over rows `t` with `t.tunnel_key >= last_key` and
`t.tunnel_key + 1` not present (`ORDER BY new_key LIMIT 1`); an empty result
raises `NoResultFound` (`none`).  Finally, a candidate greater than
`_TUNNEL_KEY_MAX` raises `NoResultFound` (`none`). -/
def tunnel_key_find (tkMax : Int) (keys : List Int) (last_key : Int) : Option Int :=
  match (if (last_key + 1) ∈ keys then
           list_min ((keys.filter
             (fun t => decide (last_key ≤ t ∧ (t + 1) ∉ keys))).map (fun t => t + 1))
         else some (last_key + 1)) with
  | none => none
  | some new_key => if new_key > tkMax then none else some new_key

/-- The commit step of `_tunnel_key_allocate`: insert the
`TunnelKey(network_id, tunnel_key)` row and overwrite the (single)
`TunnelKeyLast` row with the new key. -/
def allocCommit (st : Store) (nid : Nat) (k : Int) : Store :=
  { tunnelKeys := (nid, k) :: st.tunnelKeys, lastRows := [k] }

/-- `_tunnel_key_allocate(session, network_id)`: load the cursor, search from
it; on `NoResultFound` search again from `_TUNNEL_KEY_MIN`; a second
`NoResultFound` propagates (`none`).  On success insert the assignment row and
update the cursor. -/
def tunnel_key_allocate_once (cfg : TunnelConfig) (st : Store) (nid : Nat) :
    Option (Int × Store) :=
  match tunnel_key_find cfg.tkMax (assignedKeys (tunnel_key_last cfg st).2)
      (tunnel_key_last cfg st).1 with
  | some k => some (k, allocCommit (tunnel_key_last cfg st).2 nid k)
  | none =>
    match tunnel_key_find cfg.tkMax (assignedKeys (tunnel_key_last cfg st).2)
        cfg.tkMin with
    | some k => some (k, allocCommit (tunnel_key_last cfg st).2 nid k)
    | none => none

/-- Source constant `_TRANSACTION_RETRY_MAX = 16`. -/
def transactionRetryMax : Nat := 16

/-- The `while True` retry loop of `tunnel_key_allocate`: run `attempt count`;
on success return it (having made `count + 1` attempts in total); on a
`SQLAlchemyError` increment `count` and, if `count > _TRANSACTION_RETRY_MAX`,
raise `ResourceExhausted` (`none`), else loop.  `fuel` is a structural bound
only; started at `transactionRetryMax + 1` with `count = 0` it never reaches
the `0` case, because the `count` check exits first. -/
def tunnel_key_retry {α : Type} (attempt : Nat → Option α) :
    Nat → Nat → Option α × Nat
  | count, 0 => (none, count)
  | count, fuel + 1 =>
    match attempt count with
    | some a => (some a, count + 1)
    | none =>
      if count + 1 > transactionRetryMax then (none, count + 1)
      else tunnel_key_retry attempt (count + 1) fuel

/-- `tunnel_key_allocate(session, network_id)` together with the number of
transactional attempts it made.  Every attempt sees the same starting store
(a failed attempt is rolled back); `NoResultFound` from the double search
failure is a `SQLAlchemyError` and is therefore caught and retried like any
other store-level error. -/
def tunnel_key_allocate_run (cfg : TunnelConfig) (st : Store) (nid : Nat) :
    Option (Int × Store) × Nat :=
  tunnel_key_retry (fun _ => tunnel_key_allocate_once cfg st nid) 0
    (transactionRetryMax + 1)

/-- `tunnel_key_allocate(session, network_id)`: `none` models raising
`q_exc.ResourceExhausted`. -/
def tunnel_key_allocate (cfg : TunnelConfig) (st : Store) (nid : Nat) :
    Option (Int × Store) :=
  (tunnel_key_allocate_run cfg st nid).1

/-- `tunnel_key_delete(session, network_id)`: delete every `TunnelKey` row of
the network; the cursor is untouched. -/
def tunnel_key_delete (st : Store) (nid : Nat) : Store :=
  { st with tunnelKeys := st.tunnelKeys.filter (fun r => r.1 ≠ nid) }

/-- Allocate tunnel keys for a list of networks in order, collecting the
returned keys; `none` as soon as one allocation fails. -/
def allocate_seq (cfg : TunnelConfig) (st : Store) :
    List Nat → Option (List Int × Store)
  | [] => some ([], st)
  | nid :: rest =>
    match tunnel_key_allocate cfg st nid with
    | none => none
    | some (k, st') =>
      match allocate_seq cfg st' rest with
      | none => none
      | some (ks, st'') => some (k :: ks, st'')

/-- The candidate computed by the spec's description of the free-slot search
(§4.3 step 3), written from the spec's words for comparison with
`tunnel_key_find`: if `last_key + 1` is unassigned it is the candidate;
otherwise the candidate is `k + 1` for the smallest `k ≥ last_key` such that
`k` is assigned and `k + 1` is not. -/
def find_spec_candidate (keys : List Int) (last_key : Int) : Option Int :=
  if (last_key + 1) ∈ keys then
    (list_min (keys.filter
      (fun t => decide (last_key ≤ t ∧ (t + 1) ∉ keys)))).map (fun t => t + 1)
  else
    some (last_key + 1)

theorem list_min_mem : ∀ {l : List Int} {m : Int}, list_min l = some m → m ∈ l := by
  intro l
  induction l with
  | nil => intro m h; simp [list_min] at h
  | cons x xs ih =>
    intro m h
    simp only [list_min] at h
    cases hxs : list_min xs with
    | none => rw [hxs] at h; cases h; exact List.mem_cons_self x xs
    | some m0 =>
      rw [hxs] at h
      cases h
      rcases le_total x m0 with hle | hle
      · rw [min_eq_left hle]; exact List.mem_cons_self x xs
      · rw [min_eq_right hle]; exact List.mem_cons_of_mem x (ih hxs)

theorem list_min_eq_none : ∀ {l : List Int}, list_min l = none ↔ l = [] := by
  intro l
  cases l with
  | nil => simp [list_min]
  | cons x xs =>
    simp only [list_min]
    cases hxs : list_min xs <;> simp

theorem list_min_map_succ (l : List Int) :
    list_min (l.map (fun t => t + 1)) = (list_min l).map (fun t => t + 1) := by
  induction l with
  | nil => simp [list_min]
  | cons x xs ih =>
    simp only [List.map_cons, list_min, ih]
    cases hxs : list_min xs with
    | none => simp
    | some m =>
      show some (min (x + 1) (m + 1)) = some (min x m + 1)
      have : min (x + 1) (m + 1) = min x m + 1 := by omega
      rw [this]

/-- When `last_key + 1` is assigned, some assigned key at or above `last_key`
has an unassigned successor (take the largest assigned key ≥ `last_key`). -/
theorem gap_exists {keys : List Int} {lk : Int} (h : lk + 1 ∈ keys) :
    ∃ t, t ∈ keys ∧ lk ≤ t ∧ (t + 1) ∉ keys := by
  classical
  set S : Finset Int := keys.toFinset.filter (fun t => lk ≤ t) with hS
  have hmem : lk + 1 ∈ S := by
    rw [hS, Finset.mem_filter]
    exact ⟨List.mem_toFinset.mpr h, by omega⟩
  have hne : S.Nonempty := ⟨lk + 1, hmem⟩
  set m : Int := S.max' hne with hm
  have hmS : m ∈ S := S.max'_mem hne
  rw [hS, Finset.mem_filter] at hmS
  refine ⟨m, List.mem_toFinset.mp hmS.1, hmS.2, ?_⟩
  intro hc
  have hcS : m + 1 ∈ S := by
    rw [hS, Finset.mem_filter]
    exact ⟨List.mem_toFinset.mpr hc, by omega⟩
  have := S.le_max' (m + 1) hcS
  omega

/-- C2: `_tunnel_key_find` returns `last_key + 1` when it is unassigned, and
otherwise `k + 1` for the smallest assigned `k ≥ last_key` whose successor is
unassigned (the spec-side candidate `find_spec_candidate`); it fails with
`NoResultFound` exactly when the candidate so computed exceeds the configured
maximum — the candidate is always defined when `last_key + 1` is assigned. -/
theorem tunnel_key_find_matches_spec (tkMax : Int) (keys : List Int) (lk : Int) :
    (tunnel_key_find tkMax keys lk =
      match find_spec_candidate keys lk with
      | none => none
      | some c => if c > tkMax then none else some c)
    ∧ ((lk + 1) ∈ keys → find_spec_candidate keys lk ≠ none) := by
  constructor
  · unfold tunnel_key_find find_spec_candidate
    by_cases h : (lk + 1) ∈ keys
    · rw [if_pos h, if_pos h, list_min_map_succ]
    · rw [if_neg h, if_neg h]
  · intro h hc
    unfold find_spec_candidate at hc
    rw [if_pos h] at hc
    rcases gap_exists h with ⟨t, ht, hlk, hnsucc⟩
    have hfilter : t ∈ keys.filter (fun t => decide (lk ≤ t ∧ (t + 1) ∉ keys)) :=
      List.mem_filter.mpr ⟨ht, by simp [hlk, hnsucc]⟩
    cases hmin : list_min (keys.filter (fun t => decide (lk ≤ t ∧ (t + 1) ∉ keys))) with
    | none =>
      rw [list_min_eq_none] at hmin
      rw [hmin] at hfilter
      cases hfilter
    | some m => rw [hmin] at hc; cases hc

/-- C2 witness: with assigned keys `{2}`, cursor `1` and maximum `10`, the
search returns `3` and the spec-side candidate is defined. -/
theorem tunnel_key_find_matches_spec_witness :
    tunnel_key_find 10 [2] 1 = some 3 ∧ find_spec_candidate [2] 1 ≠ none := by
  have h := tunnel_key_find_matches_spec 10 [2] 1
  exact ⟨by rw [h.1]; decide, h.2 (by decide)⟩

/-- C8: `tunnel_key_init` keeps the previous configuration unchanged whenever
`min < 1`, `max > 0xffffffff` or `min > max`, and installs `(min, max)` for
every valid pair `1 ≤ min ≤ max ≤ 0xffffffff`. -/
theorem tunnel_key_init_validates (cfg : TunnelConfig) (tmin tmax : Int) :
    ((tmin < 1 ∨ tmax > 0xffffffff ∨ tmin > tmax) →
      tunnel_key_init cfg tmin tmax = cfg)
    ∧ (1 ≤ tmin → tmin ≤ tmax → tmax ≤ 0xffffffff →
      tunnel_key_init cfg tmin tmax = ⟨tmin, tmax⟩) := by
  unfold tunnel_key_init tunnelKeyMinHard tunnelKeyMaxHard
  constructor
  · intro h
    rw [if_pos h]
  · intro h1 h2 h3
    rw [if_neg (by omega)]

/-- C8 witness: starting from configuration `(1, 100)`, the invalid request
`(0, 5)` is ignored and the valid request `(2, 7)` is installed. -/
theorem tunnel_key_init_validates_witness :
    tunnel_key_init ⟨1, 100⟩ 0 5 = ⟨1, 100⟩ ∧ tunnel_key_init ⟨1, 100⟩ 2 7 = ⟨2, 7⟩ :=
  ⟨(tunnel_key_init_validates ⟨1, 100⟩ 0 5).1 (Or.inl (by decide)),
   (tunnel_key_init_validates ⟨1, 100⟩ 2 7).2 (by decide) (by decide) (by decide)⟩

theorem retry_none_fst {α : Type} :
    ∀ (fuel count : Nat),
      (tunnel_key_retry (fun _ => (none : Option α)) count fuel).1 = none := by
  intro fuel
  induction fuel with
  | zero => intro count; rfl
  | succ n ih =>
    intro count
    show (if count + 1 > transactionRetryMax then ((none : Option α), count + 1)
          else tunnel_key_retry (fun _ => none) (count + 1) n).1 = none
    split
    · rfl
    · exact ih (count + 1)

theorem retry_count_le {α : Type} (attempt : Nat → Option α) :
    ∀ (fuel count : Nat), count ≤ transactionRetryMax →
      (tunnel_key_retry attempt count fuel).2 ≤ transactionRetryMax + 1 := by
  intro fuel
  induction fuel with
  | zero => intro count h; exact Nat.le_succ_of_le h
  | succ n ih =>
    intro count h
    show (match attempt count with
          | some a => (some a, count + 1)
          | none =>
            if count + 1 > transactionRetryMax then (none, count + 1)
            else tunnel_key_retry attempt (count + 1) n).2 ≤ transactionRetryMax + 1
    cases attempt count with
    | some a => exact Nat.succ_le_succ h
    | none =>
      show (if count + 1 > transactionRetryMax then ((none : Option α), count + 1)
            else tunnel_key_retry attempt (count + 1) n).2 ≤ transactionRetryMax + 1
      split
      · exact Nat.succ_le_succ h
      · next hgt => exact ih (count + 1) (by omega)

theorem retry_all_fail {α : Type} (attempt : Nat → Option α)
    (hfail : ∀ i, attempt i = none) :
    ∀ (fuel count : Nat), count + fuel = transactionRetryMax + 1 →
      tunnel_key_retry attempt count fuel = (none, transactionRetryMax + 1) := by
  intro fuel
  induction fuel with
  | zero => intro count h; show ((none : Option α), count) = _; rw [Nat.add_zero] at h; rw [h]
  | succ n ih =>
    intro count h
    show (match attempt count with
          | some a => (some a, count + 1)
          | none =>
            if count + 1 > transactionRetryMax then (none, count + 1)
            else tunnel_key_retry attempt (count + 1) n) = (none, transactionRetryMax + 1)
    rw [hfail count]
    show (if count + 1 > transactionRetryMax then ((none : Option α), count + 1)
          else tunnel_key_retry attempt (count + 1) n) = (none, transactionRetryMax + 1)
    split
    · next hgt =>
      have : count + 1 = transactionRetryMax + 1 := by
        unfold transactionRetryMax at hgt h ⊢
        omega
      rw [this]
    · exact ih (count + 1) (by omega)

/-- The retry wrapper around a deterministic attempt returns exactly what a
single attempt returns: a successful attempt is taken on the first iteration,
and a failing attempt fails on every iteration. -/
theorem tunnel_key_allocate_eq (cfg : TunnelConfig) (st : Store) (nid : Nat) :
    tunnel_key_allocate cfg st nid = tunnel_key_allocate_once cfg st nid := by
  unfold tunnel_key_allocate tunnel_key_allocate_run
  cases h : tunnel_key_allocate_once cfg st nid with
  | some a => rfl
  | none => exact retry_none_fst (transactionRetryMax + 1) 0

/-- C6 (amended): for every sequence of per-attempt outcomes the retry loop of
`tunnel_key_allocate` makes at most `_TRANSACTION_RETRY_MAX + 1 = 17`
transactional attempts, and when every attempt fails with a store-level
(SQLAlchemy) error it stops after exactly 17 attempts and raises
`ResourceExhausted` (`none`). -/
theorem tunnel_key_retry_bounded {α : Type} (attempt : Nat → Option α) :
    (tunnel_key_retry attempt 0 (transactionRetryMax + 1)).2 ≤ transactionRetryMax + 1
    ∧ ((∀ i, attempt i = none) →
      tunnel_key_retry attempt 0 (transactionRetryMax + 1)
        = (none, transactionRetryMax + 1)) :=
  ⟨retry_count_le attempt (transactionRetryMax + 1) 0 (Nat.zero_le _),
   fun h => retry_all_fail attempt h (transactionRetryMax + 1) 0 (Nat.zero_add _)⟩

/-- C6 witness: an always-failing attempt is retried until the loop stops
after 17 attempts with `none`. -/
theorem tunnel_key_retry_bounded_witness :
    tunnel_key_retry (fun _ => (none : Option Int)) 0 17 = (none, 17) :=
  (tunnel_key_retry_bounded (fun _ => (none : Option Int))).2 (fun _ => rfl)

/-- C6 counterexample: the claim's bound of at most 16 attempts is false — on
a store whose configured range `[1, 3]` is exhausted (keys 2 and 3 assigned),
`tunnel_key_allocate` makes 17 attempts. -/
theorem tunnel_key_retry_sixteen_false :
    ¬ ((tunnel_key_allocate_run ⟨1, 3⟩ ⟨[(1, 2), (2, 3)], [3]⟩ 9).2 ≤ 16) := by
  decide

/-- C5 (amended): when, within one allocation attempt, the gap search fails
starting from the loaded cursor and fails again starting from the configured
minimum, the attempt raises `NoResultFound` — a `SQLAlchemyError` — so the
retry loop catches it and retries; `tunnel_key_allocate` fails with
`ResourceExhausted` (`none`) only after consuming the whole retry budget of
17 attempts. -/
theorem tunnel_key_allocate_exhaustion_retries (cfg : TunnelConfig) (st : Store)
    (nid : Nat)
    (h1 : tunnel_key_find cfg.tkMax (assignedKeys (tunnel_key_last cfg st).2)
      (tunnel_key_last cfg st).1 = none)
    (h2 : tunnel_key_find cfg.tkMax (assignedKeys (tunnel_key_last cfg st).2)
      cfg.tkMin = none) :
    tunnel_key_allocate cfg st nid = none
    ∧ (tunnel_key_allocate_run cfg st nid).2 = transactionRetryMax + 1 := by
  have honce : tunnel_key_allocate_once cfg st nid = none := by
    unfold tunnel_key_allocate_once
    rw [h1, h2]
  have hfun : (fun _ : Nat => tunnel_key_allocate_once cfg st nid)
      = (fun _ : Nat => (none : Option (Int × Store))) := funext (fun _ => honce)
  constructor
  · rw [tunnel_key_allocate_eq, honce]
  · unfold tunnel_key_allocate_run
    rw [hfun, retry_all_fail _ (fun _ => rfl) (transactionRetryMax + 1) 0 (Nat.zero_add _)]

/-- C5 witness: with configured range `[1, 3]` and keys 2 and 3 assigned, both
searches fail and the allocation fails after 17 attempts. -/
theorem tunnel_key_allocate_exhaustion_retries_witness :
    tunnel_key_allocate ⟨1, 3⟩ ⟨[(1, 2), (2, 3)], [3]⟩ 9 = none
    ∧ (tunnel_key_allocate_run ⟨1, 3⟩ ⟨[(1, 2), (2, 3)], [3]⟩ 9).2
      = transactionRetryMax + 1 :=
  tunnel_key_allocate_exhaustion_retries ⟨1, 3⟩ ⟨[(1, 2), (2, 3)], [3]⟩ 9
    (by decide) (by decide)

/-- C5 counterexample: the claim "the exhaustion outcome does not consume
additional attempts of the retry loop" is false — on the exhausted store with
range `[1, 3]` and keys 2 and 3 assigned, both searches fail inside one
attempt, yet the run makes 17 attempts before raising `ResourceExhausted`. -/
theorem tunnel_key_exhaustion_no_retry_false :
    tunnel_key_find 3 (assignedKeys (tunnel_key_last ⟨1, 3⟩ ⟨[(1, 2), (2, 3)], [3]⟩).2)
      (tunnel_key_last ⟨1, 3⟩ ⟨[(1, 2), (2, 3)], [3]⟩).1 = none
    ∧ tunnel_key_find 3 (assignedKeys (tunnel_key_last ⟨1, 3⟩ ⟨[(1, 2), (2, 3)], [3]⟩).2)
      1 = none
    ∧ ¬ ((tunnel_key_allocate_run ⟨1, 3⟩ ⟨[(1, 2), (2, 3)], [3]⟩ 9).2 = 1) := by
  decide

theorem find_some_bounds {tkMax : Int} {keys : List Int} {lk k : Int}
    (h : tunnel_key_find tkMax keys lk = some k) : lk + 1 ≤ k ∧ k ≤ tkMax := by
  unfold tunnel_key_find at h
  split at h
  · cases h
  · next nk hq =>
    split at h
    · cases h
    · next hgt =>
      cases h
      by_cases hmem : (lk + 1) ∈ keys
      · rw [if_pos hmem] at hq
        rcases List.mem_map.mp (list_min_mem hq) with ⟨t, htf, ht1⟩
        have hp := of_decide_eq_true (List.mem_filter.mp htf).2
        have hp1 := hp.1
        omega
      · rw [if_neg hmem] at hq
        cases hq
        omega

theorem tunnel_key_last_facts (cfg : TunnelConfig) (st : Store) :
    (tunnel_key_last cfg st).2.tunnelKeys = st.tunnelKeys
    ∧ (tunnel_key_last cfg st).2.lastRows = [(tunnel_key_last cfg st).1]
    ∧ ((∀ l ∈ st.lastRows, cfg.tkMin ≤ l) → cfg.tkMin ≤ (tunnel_key_last cfg st).1) := by
  rcases hl : st.lastRows with _ | ⟨x, rest⟩
  · simp [tunnel_key_last, hl]
  · rcases rest with _ | ⟨y, rest2⟩
    · refine ⟨by simp [tunnel_key_last, hl], by simp [tunnel_key_last, hl], ?_⟩
      intro h
      have hx := h x (List.mem_cons_self x [])
      simpa [tunnel_key_last, hl] using hx
    · simp [tunnel_key_last, hl]

/-- Store states reachable from the empty database by tunnel-key operations
under a fixed configuration: successful allocations and deletions.  A failed
allocation rolls its transaction back and leaves the store unchanged, so it
adds no constructor. -/
inductive Reachable (cfg : TunnelConfig) : Store → Prop where
  | empty : Reachable cfg ⟨[], []⟩
  | alloc {st st' : Store} {nid : Nat} {k : Int} :
      Reachable cfg st → tunnel_key_allocate cfg st nid = some (k, st') →
      Reachable cfg st'
  | del {st : Store} (nid : Nat) :
      Reachable cfg st → Reachable cfg (tunnel_key_delete st nid)

theorem alloc_once_bounds {cfg : TunnelConfig} {st st' : Store} {nid : Nat} {k : Int}
    (hinv : ∀ l ∈ st.lastRows, cfg.tkMin ≤ l)
    (h : tunnel_key_allocate_once cfg st nid = some (k, st')) :
    cfg.tkMin + 1 ≤ k ∧ k ≤ cfg.tkMax ∧ st'.lastRows = [k] := by
  unfold tunnel_key_allocate_once at h
  rcases tunnel_key_last_facts cfg st with ⟨hkeys, hrows, hmin⟩
  split at h
  · next k1 hfind =>
    injection h with hpair
    injection hpair with hk hst
    subst hk; subst hst
    have hb := find_some_bounds hfind
    have hcur := hmin hinv
    exact ⟨by omega, hb.2, rfl⟩
  · next hfind1 =>
    split at h
    · next k2 hfind2 =>
      injection h with hpair
      injection hpair with hk hst
      subst hk; subst hst
      have hb := find_some_bounds hfind2
      exact ⟨by omega, hb.2, rfl⟩
    · cases h

/-- In every reachable store state, every `TunnelKeyLast` row holds a value at
least the configured minimum. -/
theorem reachable_lastRows_ge {cfg : TunnelConfig} {st : Store}
    (h : Reachable cfg st) : ∀ l ∈ st.lastRows, cfg.tkMin ≤ l := by
  induction h with
  | empty => intro l hl; cases hl
  | alloc hst hal ih =>
    rw [tunnel_key_allocate_eq] at hal
    have hb := alloc_once_bounds ih hal
    intro l hl
    rw [hb.2.2] at hl
    rcases List.mem_singleton.mp hl with rfl
    omega
  | del nid hst ih =>
    intro l hl
    exact ih l (by simpa [tunnel_key_delete] using hl)

theorem alloc_key_bounds {cfg : TunnelConfig} {st st' : Store} {nid : Nat} {k : Int}
    (hr : Reachable cfg st) (h : tunnel_key_allocate cfg st nid = some (k, st')) :
    cfg.tkMin + 1 ≤ k ∧ k ≤ cfg.tkMax := by
  rw [tunnel_key_allocate_eq] at h
  have hb := alloc_once_bounds (reachable_lastRows_ge hr) h
  exact ⟨hb.1, hb.2.1⟩

/-- C3: for every valid configured range `[min, max]` and every reachable
store state, a successful `tunnel_key_allocate` call never returns 0 and never
returns a value outside `[min, max]`. -/
theorem tunnel_key_allocate_in_range (cfg : TunnelConfig) (st st' : Store)
    (nid : Nat) (k : Int)
    (hvalid1 : 1 ≤ cfg.tkMin) (_hvalid2 : cfg.tkMin ≤ cfg.tkMax)
    (_hvalid3 : cfg.tkMax ≤ 0xffffffff)
    (hr : Reachable cfg st)
    (h : tunnel_key_allocate cfg st nid = some (k, st')) :
    k ≠ 0 ∧ cfg.tkMin ≤ k ∧ k ≤ cfg.tkMax := by
  have hb := alloc_key_bounds hr h
  have hb1 := hb.1
  exact ⟨by omega, by omega, hb.2⟩

/-- C3 witness: with range `[1, 10]` the first allocation from the empty store
returns key 2, which is nonzero and inside the range. -/
theorem tunnel_key_allocate_in_range_witness :
    (2 : Int) ≠ 0 ∧ (1 : Int) ≤ 2 ∧ (2 : Int) ≤ 10 :=
  tunnel_key_allocate_in_range ⟨1, 10⟩ ⟨[], []⟩ ⟨[(7, 2)], [2]⟩ 7 2
    (by decide) (by decide) (by decide) Reachable.empty (by decide)

/-- C10: the configured minimum tunnel key is itself never returned by a
successful allocation — the cursor is initialized to the configured minimum,
every candidate produced by the search is one more than a value at least the
search starting point, and the wrap restarts at the configured minimum, so in
every reachable store state every returned key is at least `min + 1`. -/
theorem tunnel_key_allocate_above_min (cfg : TunnelConfig) (st st' : Store)
    (nid : Nat) (k : Int) (hr : Reachable cfg st)
    (h : tunnel_key_allocate cfg st nid = some (k, st')) :
    cfg.tkMin + 1 ≤ k :=
  (alloc_key_bounds hr h).1

/-- C10 witness: with range `[3, 10]` the first allocation from the empty
store returns key 4 = min + 1. -/
theorem tunnel_key_allocate_above_min_witness : (3 : Int) + 1 ≤ 4 :=
  tunnel_key_allocate_above_min ⟨3, 10⟩ ⟨[], []⟩ ⟨[(7, 4)], [4]⟩ 7 4
    Reachable.empty (by decide)

/-- C1 counterexample: with configured minimum 1 and maximum 6 (satisfying the
claim's "maximum at least 6"), allocating tunnel keys for the five networks
1..5 sequentially from the empty store yields keys 2, 3, 4, 5, 6 — not
1, 2, 3, 4, 5 as claimed (the configured minimum is never returned); moreover
with maximum 10 the allocation after deleting key 3's assignment returns 7
(cursor extension), not the gap 3, so gap-fill-before-extension also fails
when extension is possible. -/
theorem tunnel_scenario_c1_false :
    (allocate_seq ⟨1, 6⟩ ⟨[], []⟩ [1, 2, 3, 4, 5]).map Prod.fst = some [2, 3, 4, 5, 6]
    ∧ ¬ ((allocate_seq ⟨1, 6⟩ ⟨[], []⟩ [1, 2, 3, 4, 5]).map Prod.fst
        = some [1, 2, 3, 4, 5])
    ∧ (tunnel_key_allocate ⟨1, 10⟩
        (tunnel_key_delete ⟨[(5, 6), (4, 5), (3, 4), (2, 3), (1, 2)], [6]⟩ 2) 6).map
        Prod.fst = some 7 := by
  decide

/-- C1 (amended): with configured minimum 1 and maximum exactly 6, allocating
tunnel keys for five distinct networks sequentially from the empty store
yields the five distinct keys 2, 3, 4, 5, 6; after deleting the assignment
holding key 3 (network 2's) and allocating for one more network, the newly
returned key equals 3 — the search from the cursor 6 fails against the
maximum, wraps to the configured minimum and fills the gap. -/
theorem tunnel_scenario_c1_amended :
    allocate_seq ⟨1, 6⟩ ⟨[], []⟩ [1, 2, 3, 4, 5]
      = some ([2, 3, 4, 5, 6], ⟨[(5, 6), (4, 5), (3, 4), (2, 3), (1, 2)], [6]⟩)
    ∧ ([2, 3, 4, 5, 6] : List Int).Nodup
    ∧ (tunnel_key_allocate ⟨1, 6⟩
        (tunnel_key_delete ⟨[(5, 6), (4, 5), (3, 4), (2, 3), (1, 2)], [6]⟩ 2) 6).map
        Prod.fst = some 3 := by
  decide

/-- C4 counterexample: with configured range `[1, 3]` and the empty store,
the third sequential allocation already fails — only two allocations succeed
(keys 2 and 3; the configured minimum 1 is never returned), so "three
allocations succeed" is false. -/
theorem tunnel_scenario_c4_false :
    allocate_seq ⟨1, 3⟩ ⟨[], []⟩ [1, 2, 3] = none := by
  decide

/-- C4 (amended): with configured range `[1, 3]` and the empty store, exactly
two allocations succeed (keys 2 and 3) and the third allocation attempt fails
with `ResourceExhausted` (`none`), after its retry budget of 17 attempts. -/
theorem tunnel_scenario_c4_amended :
    (allocate_seq ⟨1, 3⟩ ⟨[], []⟩ [1, 2]).map Prod.fst = some [2, 3]
    ∧ tunnel_key_allocate ⟨1, 3⟩ ⟨[(2, 3), (1, 2)], [3]⟩ 3 = none
    ∧ (tunnel_key_allocate_run ⟨1, 3⟩ ⟨[(2, 3), (1, 2)], [3]⟩ 3).2 = 17 := by
  decide

/-- C7: evaluation of the cursor-load repair at the failing input — two stored
`TunnelKeyLast` rows 5 and 7 under configuration `[1, 0xffffffff]`.  The
claim (and the source's visible intent) is a collapsed `last_key` of 7, the
maximum of the stored values; the code instead compares the un-executed
`Query` object against `_TUNNEL_KEY_MAX`, which under Python 2 is always
true, and therefore always writes the configured minimum 1. -/
theorem tunnel_key_last_collapse_bug :
    tunnel_key_last ⟨1, 0xffffffff⟩ ⟨[], [5, 7]⟩ = (1, ⟨[], [1]⟩)
    ∧ ¬ ((tunnel_key_last ⟨1, 0xffffffff⟩ ⟨[], [5, 7]⟩).1 = 7) := by
  decide

/-- One row of the linuxbridge VLAN state table:
`(physical_network, vlan_id, allocated)`. -/
structure VlanSlot where
  physical_network : String
  vlan_id : Int
  allocated : Bool
deriving Repr, DecidableEq

/-- Modelled from the spec: `get_vlan_state` /
`quantum.plugins.linuxbridge.db.l2network_db_v2.get_network_state`, whose
source is not under `src/` (only its tests are) — look up the state row for
`(physical_network, vlan_id)`, absent (`none`) when no row exists. -/
def get_network_state (rows : List VlanSlot) (pn : String) (vid : Int) :
    Option VlanSlot :=
  rows.find? (fun s => s.physical_network == pn && s.vlan_id == vid)

/-- Whether `vlan_id` falls inside some configured `(min, max)` range of the
given physical network in the current range configuration. -/
def vlan_in_ranges (ranges : List (String × List (Int × Int))) (pn : String)
    (vid : Int) : Bool :=
  ranges.any (fun e => e.1 == pn
    && e.2.any (fun r => decide (r.1 ≤ vid) && decide (vid ≤ r.2)))

/-- Modelled from the spec: `release_vlan` /
`quantum.plugins.linuxbridge.db.l2network_db_v2.release_network`, whose
source is not under `src/` (only its tests are) — if the row exists and the id
falls within the current configuration's ranges, mark the row free and keep
it; if the row exists and the id is outside all current ranges, delete the
row; if no row exists, do nothing. -/
def release_network (rows : List VlanSlot) (pn : String) (vid : Int)
    (ranges : List (String × List (Int × Int))) : List VlanSlot :=
  match get_network_state rows pn vid with
  | none => rows
  | some _ =>
    if vlan_in_ranges ranges pn vid then
      rows.map (fun s =>
        if s.physical_network == pn && s.vlan_id == vid then
          { s with allocated := false }
        else s)
    else
      rows.filter (fun s => !(s.physical_network == pn && s.vlan_id == vid))

theorem find_map_markfree {rows : List VlanSlot} {pn : String} {vid : Int}
    (hex : get_network_state rows pn vid ≠ none) :
    ∃ s, get_network_state
        (rows.map (fun s =>
          if s.physical_network == pn && s.vlan_id == vid then
            { s with allocated := false }
          else s)) pn vid = some s
      ∧ s.allocated = false ∧ s.physical_network = pn ∧ s.vlan_id = vid := by
  induction rows with
  | nil => exact absurd rfl hex
  | cons r rest ih =>
    by_cases hp : (r.physical_network == pn && r.vlan_id == vid) = true
    · have hpn : r.physical_network = pn := by
        have := (Bool.and_eq_true _ _).mp hp
        exact eq_of_beq this.1
      have hvid : r.vlan_id = vid := by
        have := (Bool.and_eq_true _ _).mp hp
        exact eq_of_beq this.2
      refine ⟨{ r with allocated := false }, ?_, rfl, hpn, hvid⟩
      unfold get_network_state
      rw [List.map_cons, if_pos hp]
      exact List.find?_cons_of_pos _ (by simpa using hp)
    · have hex' : get_network_state rest pn vid ≠ none := by
        unfold get_network_state at hex ⊢
        rw [List.find?_cons_of_neg _ (by simpa using hp)] at hex
        exact hex
      rcases ih hex' with ⟨s, hs, hall, hspn, hsvid⟩
      refine ⟨s, ?_, hall, hspn, hsvid⟩
      unfold get_network_state at hs ⊢
      rw [List.map_cons, if_neg hp]
      rw [List.find?_cons_of_neg _ (by simpa using hp)]
      exact hs

theorem find_filter_out {rows : List VlanSlot} {pn : String} {vid : Int} :
    get_network_state
      (rows.filter (fun s => !(s.physical_network == pn && s.vlan_id == vid)))
      pn vid = none := by
  unfold get_network_state
  rw [List.find?_eq_none]
  intro s hs
  have := (List.mem_filter.mp hs).2
  simp only [Bool.not_eq_true'] at this
  simp [this]

/-- C9: releasing a VLAN id whose row exists and which falls inside some
configured range of its physical network keeps the row and marks it free;
releasing an id outside all configured ranges leaves no row behind (the row is
deleted, or there was none), so a subsequent state lookup returns absent; and
releasing an id with no existing row is a no-op. -/
theorem release_network_matches_spec (rows : List VlanSlot) (pn : String)
    (vid : Int) (ranges : List (String × List (Int × Int))) :
    (get_network_state rows pn vid = none →
      release_network rows pn vid ranges = rows)
    ∧ (get_network_state rows pn vid ≠ none → vlan_in_ranges ranges pn vid = true →
      ∃ s, get_network_state (release_network rows pn vid ranges) pn vid = some s
        ∧ s.allocated = false ∧ s.physical_network = pn ∧ s.vlan_id = vid)
    ∧ (vlan_in_ranges ranges pn vid = false →
      get_network_state (release_network rows pn vid ranges) pn vid = none) := by
  refine ⟨?_, ?_, ?_⟩
  · intro h
    unfold release_network
    rw [h]
  · intro hex hin
    unfold release_network
    cases hrow : get_network_state rows pn vid with
    | none => exact absurd hrow hex
    | some s0 =>
      rw [if_pos hin]
      exact find_map_markfree hex
  · intro hout
    unfold release_network
    cases hrow : get_network_state rows pn vid with
    | none => exact hrow
    | some s0 =>
      rw [if_neg (by rw [hout]; exact Bool.false_ne_true)]
      exact find_filter_out

/-- C9 witness: with rows for ids 15 (in the configured range `[10, 19]` of
physnet1) and 24 (outside it), both allocated — releasing 15 keeps its row
marked free, releasing 24 deletes its row, and releasing the absent id 17 of
physnet2 is a no-op. -/
theorem release_network_matches_spec_witness :
    (∃ s, get_network_state
        (release_network [⟨"physnet1", 15, true⟩, ⟨"physnet1", 24, true⟩]
          "physnet1" 15 [("physnet1", [(10, 19)])]) "physnet1" 15 = some s
      ∧ s.allocated = false ∧ s.physical_network = "physnet1" ∧ s.vlan_id = 15)
    ∧ get_network_state
        (release_network [⟨"physnet1", 15, true⟩, ⟨"physnet1", 24, true⟩]
          "physnet1" 24 [("physnet1", [(10, 19)])]) "physnet1" 24 = none
    ∧ release_network [⟨"physnet1", 15, true⟩, ⟨"physnet1", 24, true⟩]
        "physnet2" 17 [("physnet1", [(10, 19)])]
      = [⟨"physnet1", 15, true⟩, ⟨"physnet1", 24, true⟩] :=
  ⟨(release_network_matches_spec [⟨"physnet1", 15, true⟩, ⟨"physnet1", 24, true⟩]
      "physnet1" 15 [("physnet1", [(10, 19)])]).2.1 (by decide) (by decide),
   (release_network_matches_spec [⟨"physnet1", 15, true⟩, ⟨"physnet1", 24, true⟩]
      "physnet1" 24 [("physnet1", [(10, 19)])]).2.2 (by decide),
   (release_network_matches_spec [⟨"physnet1", 15, true⟩, ⟨"physnet1", 24, true⟩]
      "physnet2" 17 [("physnet1", [(10, 19)])]).1 (by decide)⟩

